import Mathlib

/-!
Verification development for the teldrive upload client.

The Go sources embedded here:
  * `src/pkg/services/upload.go` — the upload engine (`UploadFile`,
    `checkFileExists`, `shouldRetry`, `CreateRemoteDir`, listing helpers);
  * `src/unnamed/part_007` (package `pb`) — the progress bar (`IncrInt64`,
    `Finish`, `Set64`, `Reset`, `Abort`, `Close`);
  * `src/unnamed/part_006` (package `pb`) — bar rendering (`getBarString`,
    `average`), whose first lines compute the bar's average rate;
  * `src/main.go` and `src/unnamed/part_013` — the `main` entry points
    (flag handling).

Machine integers (Go `int64`) are modelled as `Int` (or `Nat` where the Go
value is a size/count that is provably non-negative, such as file sizes
returned by `Stat` and part ordinals).  Wall-clock instants and rates
(Go `time.Time` / `float64` seconds) are modelled as exact rationals `ℚ`.
Fallible operations return `Except`/`Option`.
-/

namespace Teldrive

/-! ## MD5 (Go `crypto/md5`, RFC 1321), over `Nat` with explicit reduction mod 2^32.

`UploadFile` feeds `md5.Sum` the bytes of an ASCII format string, so the byte
encoding of a string is its code points (UTF-8 coincides with this on ASCII). -/

def w32 : Nat := 4294967296

def maskw (x : Nat) : Nat := x % w32

/-- Bitwise NOT on a 32-bit word, as xor with the all-ones word. -/
def notw (x : Nat) : Nat := x ^^^ 4294967295

/-- Left-rotation of a 32-bit word by `n` (0 ≤ n < 32). -/
def rotl (x n : Nat) : Nat := maskw ((x <<< n) ||| (x >>> (32 - n)))

/-- Per-round shift amounts of MD5. -/
def md5S : List Nat :=
  [7, 12, 17, 22, 7, 12, 17, 22, 7, 12, 17, 22, 7, 12, 17, 22,
   5, 9, 14, 20, 5, 9, 14, 20, 5, 9, 14, 20, 5, 9, 14, 20,
   4, 11, 16, 23, 4, 11, 16, 23, 4, 11, 16, 23, 4, 11, 16, 23,
   6, 10, 15, 21, 6, 10, 15, 21, 6, 10, 15, 21, 6, 10, 15, 21]

/-- The sine-derived additive constants of MD5. -/
def md5K : List Nat :=
  [3614090360, 3905402710, 606105819, 3250441966, 4118548399, 1200080426,
   2821735955, 4249261313, 1770035416, 2336552879, 4294925233, 2304563134,
   1804603682, 4254626195, 2792965006, 1236535329, 4129170786, 3225465664,
   643717713, 3921069994, 3593408605, 38016083, 3634488961, 3889429448,
   568446438, 3275163606, 4107603335, 1163531501, 2850285829, 4243563512,
   1735328473, 2368359562, 4294588738, 2272392833, 1839030562, 4259657740,
   2763975236, 1272893353, 4139469664, 3200236656, 681279174, 3936430074,
   3572445317, 76029189, 3654602809, 3873151461, 530742520, 3299628645,
   4096336452, 1126891415, 2878612391, 4237533241, 1700485571, 2399980690,
   4293915773, 2240044497, 1873313359, 4264355552, 2734768916, 1309151649,
   4149444226, 3174756917, 718787259, 3951481745]

/-- One MD5 round: state `(a, b, c, d)`, message-word accessor `m`, round index `i`. -/
def md5Round (m : Nat → Nat) (st : Nat × Nat × Nat × Nat) (i : Nat) :
    Nat × Nat × Nat × Nat :=
  let a := st.1
  let b := st.2.1
  let c := st.2.2.1
  let d := st.2.2.2
  let fg : Nat × Nat :=
    if i < 16 then ((b &&& c) ||| (notw b &&& d), i)
    else if i < 32 then ((d &&& b) ||| (notw d &&& c), (5 * i + 1) % 16)
    else if i < 48 then (b ^^^ c ^^^ d, (3 * i + 5) % 16)
    else (c ^^^ (b ||| notw d), (7 * i) % 16)
  let f := maskw (fg.1 + a + md5K.getD i 0 + m fg.2)
  (d, maskw (b + rotl f (md5S.getD i 0)), b, c)

/-- Little-endian decoding of 4 bytes starting at offset `4*j` of a block. -/
def blockWord (blk : List Nat) (j : Nat) : Nat :=
  blk.getD (4 * j) 0 + 256 * blk.getD (4 * j + 1) 0 +
    65536 * blk.getD (4 * j + 2) 0 + 16777216 * blk.getD (4 * j + 3) 0

/-- Process one 64-byte block, updating the 4-word digest state. -/
def md5Block (st : Nat × Nat × Nat × Nat) (blk : List Nat) : Nat × Nat × Nat × Nat :=
  let r := (List.range 64).foldl (md5Round (blockWord blk)) st
  (maskw (st.1 + r.1), maskw (st.2.1 + r.2.1),
   maskw (st.2.2.1 + r.2.2.1), maskw (st.2.2.2 + r.2.2.2))

/-- Split a byte list into 64-byte blocks (fuel-indexed so it reduces in the kernel). -/
def toBlocksAux : Nat → List Nat → List (List Nat)
  | 0, _ => []
  | _ + 1, [] => []
  | fuel + 1, l => l.take 64 :: toBlocksAux fuel (l.drop 64)

def toBlocks (l : List Nat) : List (List Nat) := toBlocksAux l.length l

/-- MD5 padding: append `0x80`, zero-fill to 56 mod 64, then the bit length
as 8 little-endian bytes. -/
def md5Pad (msg : List Nat) : List Nat :=
  let lenBits := 8 * msg.length
  let zeroCount := (119 - msg.length % 64) % 64
  msg ++ [128] ++ List.replicate zeroCount 0 ++
    (List.range 8).map fun i => lenBits >>> (8 * i) % 256

/-- Little-endian byte serialisation of a 32-bit word. -/
def wordBytes (x : Nat) : List Nat := [x % 256, x >>> 8 % 256, x >>> 16 % 256, x >>> 24 % 256]

/-- The 16-byte MD5 digest of a byte sequence. -/
def md5 (msg : List Nat) : List Nat :=
  let st := (toBlocks (md5Pad msg)).foldl md5Block
    (1732584193, 4023233417, 2562383102, 271733878)
  wordBytes st.1 ++ wordBytes st.2.1 ++ wordBytes st.2.2.1 ++ wordBytes st.2.2.2

def hexDigit (n : Nat) : Char :=
  if n = 0 then '0' else if n = 1 then '1' else if n = 2 then '2'
  else if n = 3 then '3' else if n = 4 then '4' else if n = 5 then '5'
  else if n = 6 then '6' else if n = 7 then '7' else if n = 8 then '8'
  else if n = 9 then '9' else if n = 10 then 'a' else if n = 11 then 'b'
  else if n = 12 then 'c' else if n = 13 then 'd' else if n = 14 then 'e'
  else 'f'

/-- Hex encoding of a byte list (Go `hex.EncodeToString`). -/
def hexEncode (bs : List Nat) : String :=
  String.mk (bs.foldr (fun b acc => hexDigit (b / 16) :: hexDigit (b % 16) :: acc) [])

/-- Byte encoding of a string; for the ASCII strings fed to the fingerprint this
is exactly its UTF-8 encoding. -/
def strBytes (s : String) : List Nat := s.data.map Char.toNat

/-- Hex MD5 digest of a string: `hex.EncodeToString(md5.Sum([]byte(s)))`. -/
def md5hex (s : String) : String := hexEncode (md5 (strBytes s))

/-! ## Fingerprinting (`UploadFile`, upload.go lines 160–165)

The code builds `input := fmt.Sprintf("%s:%s:%d", fileName, destDir, fileSize)`,
hashes it with MD5 and embeds the hex digest in `/api/uploads/<hash>`. -/

/-- The string fed to `md5.Sum` by `UploadFile` (upload.go line 160). -/
def fingerprintInput (fileName destDir : String) (fileSize : Nat) : String :=
  fileName ++ ":" ++ destDir ++ ":" ++ toString fileSize

/-- `hashString` of `UploadFile` (upload.go lines 162–163). -/
def hashStringOf (fileName destDir : String) (fileSize : Nat) : String :=
  md5hex (fingerprintInput fileName destDir fileSize)

/-- `uploadURL` of `UploadFile` (upload.go line 165). -/
def uploadURLOf (fileName destDir : String) (fileSize : Nat) : String :=
  "/api/uploads/" ++ hashStringOf fileName destDir fileSize

/-- Modelled from the spec: the fingerprint input the specification describes,
`directoryID + ":" + fileName + ":" + size + ":" + userID` (spec §4.3).  This
definition follows the spec's words and exists only to be compared with
`fingerprintInput`, which is translated from the source. -/
def specFingerprintInput (directoryID fileName : String) (size : Nat) (userID : String) :
    String :=
  directoryID ++ ":" ++ fileName ++ ":" ++ toString size ++ ":" ++ userID

/-! ## Retry classification and the pacer loop (upload.go lines 28–35, 71–76)

An HTTP interaction is summarised by a `CallOutcome`: either the transport
failed (with rclone's classification of whether that error is retryable —
`fserrors.ShouldRetry`), or a response with a status code arrived.
`rest.Client.CallJSON` returns a non-nil error exactly when the transport
failed or the status is outside 200–299. -/

def retryErrorCodes : List Nat := [429, 500, 502, 503, 504, 509]

inductive CallOutcome where
  | transportError (retryable : Bool)
  | response (status : Nat)
deriving DecidableEq, Repr

def statusOf : CallOutcome → Option Nat
  | .transportError _ => none
  | .response s => some s

/-- Whether `rest.Client.CallJSON` reports an error for this outcome. -/
def callJSONErr : CallOutcome → Bool
  | .transportError _ => true
  | .response s => decide (s < 200) || decide (299 < s)

/-- `shouldRetry` (upload.go lines 71–76): context cancellation is
non-retryable; otherwise retry on a retryable transport error
(`fserrors.ShouldRetry`) or a status in `retryErrorCodes`
(`fserrors.ShouldRetryHTTP`). -/
def shouldRetry (ctxCancelled : Bool) (o : CallOutcome) : Bool :=
  if ctxCancelled then false
  else
    match o with
    | .transportError r => r
    | .response s => retryErrorCodes.contains s

/-- rclone pacer: number of attempts `fs.Pacer.Call` makes (default
low-level retry budget is 10). -/
def lowLevelRetries : Nat := 10

/-- `pacer.Call` re-invokes the inner call while `shouldRetry` holds, up to the
attempt budget; `env i` is the outcome of the i-th attempt.  Returns the number
of attempts made and the final outcome. -/
def pacerRun (env : Nat → CallOutcome) : Nat → Nat → Nat × CallOutcome
  | 0, i => (i, env i)
  | 1, i => (i + 1, env i)
  | fuel + 2, i =>
    if shouldRetry false (env i) then pacerRun env (fuel + 1) (i + 1)
    else (i + 1, env i)

def pacerCall (env : Nat → CallOutcome) : Nat × CallOutcome :=
  pacerRun env lowLevelRetries 0

def pacerCallAttempts (env : Nat → CallOutcome) : Nat := (pacerCall env).1

/-- Whether the pacer-wrapped call surfaces an error after the retry loop. -/
def pacerCallErr (env : Nat → CallOutcome) : Bool := callJSONErr (pacerCall env).2

/-- The part upload POST (upload.go line 306) is a single bare
`u.http.CallJSON` with no `pacer.Call` wrapper: exactly one attempt is made,
whatever the outcomes are. -/
def partUploadAttempts (_env : Nat → CallOutcome) : Nat := 1

/-- A server call site of the engine: HTTP method, path, and whether the call
is wrapped in `u.pacer.Call`. -/
structure ServerCallSite where
  method : String
  path : String
  pacered : Bool
deriving DecidableEq, Repr

/-- The server calls `UploadFile` can issue, in program order (upload.go):
existence probe (line 93), resumable-state probe (line 176), part upload POST
(line 306, not pacer-wrapped), commit POST (line 359), resumable-state DELETE
(line 368). -/
def uploadFileCallSites (fp : String) : List ServerCallSite :=
  [⟨"GET", "/api/files", true⟩,
   ⟨"GET", "/api/uploads/" ++ fp, true⟩,
   ⟨"POST", "/api/uploads/" ++ fp, false⟩,
   ⟨"POST", "/api/files", true⟩,
   ⟨"DELETE", "/api/uploads/" ++ fp, true⟩]

/-- `CreateRemoteDir` (upload.go line 395): pacer-wrapped. -/
def createRemoteDirCallSite : ServerCallSite := ⟨"POST", "/api/files/directories", true⟩

/-- `readMetaDataForPath` (upload.go line 424), used by directory listings:
pacer-wrapped. -/
def readMetaDataCallSite : ServerCallSite := ⟨"GET", "/api/files", true⟩

/-! ## The upload engine (`UploadFile`, upload.go lines 107–380)

Data shapes are from `src/pkg/types/types.go`. -/

structure PartFile where
  name : String
  partId : Int
  partNo : Int
  totalParts : Int
  size : Int
  channelID : Int
  encrypted : Bool
  salt : String
deriving DecidableEq, Repr

structure FilePart where
  id : Int
  partNo : Int
  salt : String
deriving DecidableEq, Repr

structure FilePayload where
  name : String
  ftype : String
  parts : List FilePart
  mimeType : String
  path : String
  size : Nat
  channelID : Int
  encrypted : Bool
deriving DecidableEq, Repr

/-- Environment of one part upload POST: the HTTP outcome, the decoded
response body, and the byte counts the progress-reporting reader observes
while the body is streamed (one entry per `Read`). -/
structure PartPost where
  outcome : CallOutcome
  body : PartFile
  streamEvents : List Int
deriving Repr

/-- Success condition of the part POST (upload.go lines 306–315): `CallJSON`
must not error, and the part is published toward the commit list exactly on
status 201 (`if resp.StatusCode == 201`). -/
def partPostPublishes (o : CallOutcome) : Bool :=
  if callJSONErr o then false
  else
    match o with
    | .response s => s == 201
    | .transportError _ => false

def partPostResult (pp : PartPost) : Option PartFile :=
  if partPostPublishes pp.outcome then some pp.body else none

/-- Environment a single `UploadFile` run interacts with. -/
structure UploadEnv where
  existsEnv : Nat → CallOutcome
  existsFound : Bool
  resumableEnv : Nat → CallOutcome
  resumableBody : List PartFile
  partPost : Nat → PartPost
  commitEnv : Nat → CallOutcome
  deleteEnv : Nat → CallOutcome

/-- `totalParts := fileSize / u.partSize; if fileSize % u.partSize != 0
{ totalParts++ }` (upload.go lines 190–193). -/
def totalPartsOf (fileSize partSize : Nat) : Nat :=
  fileSize / partSize + (if fileSize % partSize ≠ 0 then 1 else 0)

/-- The `existingParts` map (upload.go lines 181–184) is keyed by `part.PartNo`
with later entries overwriting earlier ones; `lookupPart ps k` is
`existingParts[k]`. -/
def lookupPart (ps : List PartFile) (k : Nat) : Option PartFile :=
  ps.foldl (fun acc p => if p.partNo == (k : Int) then some p else acc) none

/-- The resumable-state probe (upload.go lines 170–186): only performed when
`u.partSize < fileSize`, and the parts map is built only when the
pacer-wrapped GET returns no error. -/
def fetchedParts (partSize fileSize : Nat) (env : UploadEnv) : Option (List PartFile) :=
  if partSize < fileSize ∧ pacerCallErr env.resumableEnv = false then
    some env.resumableBody
  else none

/-- The existence probe result (`checkFileExists`, upload.go lines 100–104):
`resp != nil && resp.StatusCode != 404 && len(info.Files) > 0`. -/
def existsCheck (env : UploadEnv) : Bool :=
  match (pacerCall env.existsEnv).2 with
  | .response s => (s != 404) && env.existsFound
  | .transportError _ => false

/-- Outcome of one part task (upload.go lines 254–316): the descriptor it
publishes on the `uploadedParts` channel (if any), whether it issued an HTTP
POST, and the bar increments it performs, tagged with the task's ordinal. -/
structure TaskOut where
  descriptor : Option PartFile
  posted : Bool
  barEvents : List (Nat × Int)
deriving Repr

/-- The part task for ordinal `k` (1-based): if the resumable map lists `k`,
publish the stored descriptor and increment the bar by its recorded size
(upload.go lines 266–270); otherwise stream the range through the proxy
reader and POST it (lines 272–315), publishing the response body exactly on
status 201. -/
def partTask (fetched : Option (List PartFile)) (post : Nat → PartPost) (k : Nat) :
    TaskOut :=
  match fetched.bind (fun ps => lookupPart ps k) with
  | some p => ⟨some p, false, [(k, p.size)]⟩
  | none =>
    let pp := post k
    ⟨partPostResult pp, true, pp.streamEvents.map fun n => (k, n)⟩

/-- Channel drain (upload.go lines 319–324): descriptors with `PartId != 0`
become commit-list entries `FilePart{ID, PartNo, Salt}`. -/
def collectDescriptor (t : TaskOut) : Option FilePart :=
  match t.descriptor with
  | some p => if p.partId == 0 then none else some ⟨p.partId, p.partNo, p.salt⟩
  | none => none

def postedOrdinalsOf (fetched : Option (List PartFile)) (post : Nat → PartPost)
    (n : Nat) : List Nat :=
  (List.range' 1 n).filter fun k => (partTask fetched post k).posted

def publishedPairsOf (fetched : Option (List PartFile)) (post : Nat → PartPost)
    (n : Nat) : List (Nat × PartFile) :=
  (List.range' 1 n).filterMap fun k =>
    ((partTask fetched post k).descriptor).map fun p => (k, p)

def collectedOf (fetched : Option (List PartFile)) (post : Nat → PartPost)
    (n : Nat) : List FilePart :=
  (List.range' 1 n).filterMap fun k => collectDescriptor (partTask fetched post k)

def barEventsOf (fetched : Option (List PartFile)) (post : Nat → PartPost)
    (n : Nat) : List (Nat × Int) :=
  (List.range' 1 n).flatMap fun k => (partTask fetched post k).barEvents

/-- `sort.Slice(parts, func(i, j int) bool { return parts[i].PartNo <
parts[j].PartNo })` (upload.go lines 333–335), as an insertion sort with the
same comparator. -/
def insertPart (x : FilePart) : List FilePart → List FilePart
  | [] => [x]
  | y :: ys => if x.partNo < y.partNo then x :: y :: ys else y :: insertPart x ys

def sortParts : List FilePart → List FilePart
  | [] => []
  | x :: xs => insertPart x (sortParts xs)

/-- Observable result of one `UploadFile` run. -/
structure UploadResult where
  result : Except String Unit
  fingerprint : Option String
  postedOrdinals : List Nat
  publishedPairs : List (Nat × PartFile)
  collectedParts : List FilePart
  commitIssued : Bool
  commitPayload : Option FilePayload
  deleteIssued : Bool
  barEvents : List (Nat × Int)
  barAborted : Bool

/-- `UploadFile` from the fingerprint computation onward (upload.go lines
160–379): probe resumable state, schedule the part tasks, drain the channel,
check completeness, sort, commit, and delete the resumable state.  The
channel override (lines 202–206) takes channel id and encryption flag from
the first fetched part when the fetched state is non-empty. -/
def uploadPhase2 (partSize fileSize : Nat) (fileName destDir mimeType : String)
    (channelID : Int) (encryptFiles : Bool) (env : UploadEnv) : UploadResult :=
  let fp := hashStringOf fileName destDir fileSize
  let fetched := fetchedParts partSize fileSize env
  let n := totalPartsOf fileSize partSize
  let chanId := match fetched with
                | some (p :: _) => p.channelID
                | _ => channelID
  let enc := match fetched with
             | some (p :: _) => p.encrypted
             | _ => encryptFiles
  let posted := postedOrdinalsOf fetched env.partPost n
  let published := publishedPairsOf fetched env.partPost n
  let collected := collectedOf fetched env.partPost n
  let events := barEventsOf fetched env.partPost n
  if collected.length ≠ n then
    ⟨.error "uploaded parts incomplete", some fp, posted, published, collected,
     false, none, false, events, true⟩
  else
    let payload : FilePayload :=
      ⟨fileName, "file", sortParts collected, mimeType, destDir, fileSize, chanId, enc⟩
    if pacerCallErr env.commitEnv then
      ⟨.error "commit failed", some fp, posted, published, collected,
       true, some payload, false, events, false⟩
    else if pacerCallErr env.deleteEnv then
      ⟨.error "delete upload state failed", some fp, posted, published, collected,
       true, some payload, true, events, false⟩
    else
      ⟨.ok (), some fp, posted, published, collected,
       true, some payload, true, events, false⟩

/-- `UploadFile` (upload.go lines 107–380).  A zero-byte file makes the
512-byte prefix read return `(0, io.EOF)`, so the prefix read errors exactly
when `fileSize = 0` (line 116); the code logs the failure (`logger.Fatal`,
which in addition terminates the process) and the function body returns the
read error before the fingerprint is computed.  Then the existence probe runs
(failure aborts the bar and propagates; a hit returns success without
transfer), and the rest is `uploadPhase2`. -/
def uploadFile (partSize fileSize : Nat) (fileName destDir mimeType : String)
    (channelID : Int) (encryptFiles : Bool) (env : UploadEnv) : UploadResult :=
  if fileSize = 0 then
    ⟨.error "read file failed", none, [], [], [], false, none, false, [], false⟩
  else if pacerCallErr env.existsEnv then
    ⟨.error "check file exists failed", none, [], [], [], false, none, false, [], true⟩
  else if existsCheck env then
    ⟨.ok (), none, [], [], [], false, none, false, [], false⟩
  else
    uploadPhase2 partSize fileSize fileName destDir mimeType channelID encryptFiles env

/-! ## The progress bar (package `pb`, src/unnamed/part_007 and part_006)

Go `int64` fields are `Int`.  Wall-clock instants are exact rationals in
seconds (`time.Duration.Seconds()` comparisons are modelled exactly); the
float rate samples are rationals as well.  Mutating methods take the current
instant `now` and return the new state together with the `error` result of
the Go method (`none` for nil). -/

structure BarConfig where
  max : Int
  width : Int
  ignoreLength : Bool
  invisible : Bool
  spinnerTypeOptionUsed : Bool
  spinnerNonempty : Bool
deriving DecidableEq, Repr

structure BarState where
  currentNum : Int
  currentBytes : Int
  currentPercent : Int
  lastPercent : Int
  currentSaucerSize : Int
  startTime : ℚ
  counterTime : ℚ
  counterNumSinceLast : Int
  counterLastTenRates : List ℚ
  completed : Bool
  finished : Bool
  exit : Bool
deriving DecidableEq, Repr

/-- `getBasicState` (part_006 lines 419–426). -/
def getBasicState (now : ℚ) : BarState :=
  ⟨0, 0, 0, 0, 0, now, now, 0, [], false, false, false⟩

/-- Go conversion `int(x)` of a float: truncation toward zero. -/
def truncRat (q : ℚ) : Int := Int.tdiv q.num (Int.ofNat q.den)

/-- `IncrInt64` (part_007 lines 72–123).  Invisible bars and exited bars are
untouched; the spinner-conflict and `max == 0` checks error without mutating;
otherwise `currentNum` is advanced while below `max` (modulo `max` when the
length is ignored, Go's truncated `%`), `currentBytes` and the sample
accumulator always advance, a rate sample is pushed when more than half a
second passed since the last boundary (dropping the head beyond 10 entries,
then resetting the boundary), the percent fields are recomputed, and finally
the method errors (state kept) when `currentNum` exceeds `max`. -/
def incrInt64 (c : BarConfig) (s : BarState) (num : Int) (now : ℚ) :
    BarState × Option String :=
  if c.invisible then (s, none)
  else if s.exit then (s, none)
  else if c.spinnerTypeOptionUsed && c.spinnerNonempty then
    (s, some "OptionSpinnerType and OptionSpinnerCustom cannot be used together")
  else if c.max = 0 then (s, some "max must be greater than 0")
  else
    let newNum :=
      if s.currentNum < c.max then
        if c.ignoreLength then Int.tmod (s.currentNum + num) c.max
        else s.currentNum + num
      else s.currentNum
    let s2 := { s with
      currentNum := newNum,
      currentBytes := s.currentBytes + num,
      counterNumSinceLast := s.counterNumSinceLast + num }
    let s3 :=
      if now - s2.counterTime > 1 / 2 then
        let rates :=
          s2.counterLastTenRates ++
            [(s2.counterNumSinceLast : ℚ) / (now - s2.counterTime)]
        { s2 with
          counterLastTenRates := if rates.length > 10 then rates.drop 1 else rates,
          counterTime := now,
          counterNumSinceLast := 0 }
      else s2
    let percent : ℚ := (s3.currentNum : ℚ) / (c.max : ℚ)
    let s4 := { s3 with
      currentSaucerSize := truncRat (percent * (c.width : ℚ)),
      currentPercent := truncRat (percent * 100),
      lastPercent := truncRat (percent * 100) }
    (s4, if s4.currentNum > c.max then some "current number exceeds max" else none)

/-- `IncrInt` (part_007 lines 54–56). -/
def incrInt (c : BarConfig) (s : BarState) (num : Int) (now : ℚ) :
    BarState × Option String :=
  incrInt64 c s num now

/-- `Finish` (part_007 lines 46–51): fill `currentNum` to `max`, then
`IncrInt(0)`. -/
def finishBar (c : BarConfig) (s : BarState) (now : ℚ) : BarState × Option String :=
  incrInt c { s with currentNum := c.max } 0 now

/-- `Set64` (part_007 lines 64–69): `IncrInt64(num - currentBytes)`. -/
def set64 (c : BarConfig) (s : BarState) (num : Int) (now : ℚ) :
    BarState × Option String :=
  incrInt64 c s (num - s.currentBytes) now

/-- `Reset` (part_007 lines 38–43). -/
def resetBar (_s : BarState) (now : ℚ) : BarState := getBasicState now

/-- `Abort` (part_007 lines 273–280). -/
def abortBar (s : BarState) : BarState := { s with exit := true }

/-- `Close` (part_007 lines 267–271). -/
def closeBar (s : BarState) : BarState := { s with completed := true }

/-- `average` (part_006 lines 33–39): sum divided by length. -/
def ratAverage (xs : List ℚ) : ℚ := xs.foldl (· + ·) 0 / (xs.length : ℚ)

/-- The `averageRate` computation at the top of `getBarString` (part_006
lines 555–567): the mean of the sample window, except that a finished bar or
an empty window falls back to `currentBytes / elapsed` (or 0 when no time has
elapsed). -/
def computeAverageRate (s : BarState) (now : ℚ) : ℚ :=
  if s.counterLastTenRates.length == 0 || s.finished then
    if now - s.startTime > 0 then (s.currentBytes : ℚ) / (now - s.startTime) else 0
  else ratAverage s.counterLastTenRates

/-! ## `main` flag handling (src/main.go lines 620–630, src/unnamed/part_013
lines 24–38)

Both entry points read `-path` and `-dest` (default `""`) and, when either is
empty, print a usage line and `return` from `main` — a normal return, so the
process exit status is 0. -/

def mainMissingFlags (path dest : String) : Bool := path == "" || dest == ""

/-- `some c` means the process stops at the usage check with exit status `c`;
`none` means `main` continues past the flag check. -/
def mainUsageExitCode (path dest : String) : Option Nat :=
  if mainMissingFlags path dest then some 0 else none

/-! ## Concrete environments used to instantiate the theorems -/

/-- A server that always answers: existence probe 200 with an empty result
list, resumable probe 200 with no recorded parts, part POSTs 201 with a
persisted part echoing the requested ordinal, commit and delete 200. -/
def envOK : UploadEnv :=
  ⟨fun _ => .response 200, false,
   fun _ => .response 200, [],
   fun k => ⟨.response 201, ⟨"a", 1, (k : Int), 1, 1, 0, false, ""⟩, [1]⟩,
   fun _ => .response 200, fun _ => .response 200⟩

/-- Like `envOK` but the commit POST keeps failing with 500. -/
def envCommitFail : UploadEnv := { envOK with commitEnv := fun _ => .response 500 }

/-- Like `envOK` but the resumable state already records part ordinal 1
(identifier 7, size 5). -/
def envResume : UploadEnv :=
  { envOK with resumableBody := [⟨"p", 7, 1, 1, 5, 0, false, "s"⟩] }

/-- An endpoint that always answers 503. -/
def env503 : Nat → CallOutcome := fun _ => CallOutcome.response 503

/-- A 10-byte-max bar configuration as built by `NewOptions64` for a 10-byte
file (part_006 lines 377–417 with the options used in upload.go lines
128–142): known length, visible, no custom spinner. -/
def barCfg10 : BarConfig := ⟨10, 10, false, false, false, false⟩

/-! ## Theorems -/

/-- C10: for a zero-byte local file the 512-byte prefix read yields EOF, so
`UploadFile` fails with the prefix-read error before the fingerprint is
computed; no part upload POST and no commit POST is issued. -/
theorem c10_empty_file (partSize : Nat) (fileName destDir mimeType : String)
    (channelID : Int) (enc : Bool) (env : UploadEnv) :
    (uploadFile partSize 0 fileName destDir mimeType channelID enc env).result
        = Except.error "read file failed" ∧
    (uploadFile partSize 0 fileName destDir mimeType channelID enc env).fingerprint = none ∧
    (uploadFile partSize 0 fileName destDir mimeType channelID enc env).postedOrdinals = [] ∧
    (uploadFile partSize 0 fileName destDir mimeType channelID enc env).commitIssued = false ∧
    (uploadFile partSize 0 fileName destDir mimeType channelID enc env).deleteIssued = false :=
  ⟨rfl, rfl, rfl, rfl, rfl⟩

/-- C9 counterexample: with `-path` missing (empty), `main` prints the usage
line and returns normally, so the process exits with status 0 — not a nonzero
code as claimed. -/
theorem c9_usage_exit_counterexample : mainUsageExitCode "" "/remote" = some 0 := rfl

/-- C9 amended: when `-path` or `-dest` is missing the process stops at the
usage check and exits with status 0 (normal return from `main`), performing
no upload. -/
theorem c9_usage_exit_amended (path dest : String) (h : path = "" ∨ dest = "") :
    mainUsageExitCode path dest = some 0 := by
  rcases h with h | h <;> subst h <;>
    simp [mainUsageExitCode, mainMissingFlags]

theorem c9_usage_exit_amended_witness : mainUsageExitCode "" "/remote2" = some 0 :=
  c9_usage_exit_amended "" "/remote2" (Or.inl rfl)

/-- C3 counterexample: a part POST answered with HTTP 200 is NOT treated as
successful — the descriptor is not published (the code only accepts 201). -/
theorem c3_part_status_counterexample :
    partPostPublishes (CallOutcome.response 200) = false := rfl

/-- C3 amended: a part upload POST is treated as successful (published toward
the commit list) exactly when the response status is 201; any other outcome,
including a 200 response, does not count. -/
theorem c3_part_status_amended (o : CallOutcome) :
    partPostPublishes o = true ↔ o = CallOutcome.response 201 := by
  cases o with
  | transportError r => simp [partPostPublishes, callJSONErr]
  | response s =>
    simp only [partPostPublishes, callJSONErr, CallOutcome.response.injEq]
    constructor
    · intro h
      split at h
      · exact absurd h (by simp)
      · simpa using h
    · rintro rfl
      norm_num

set_option maxRecDepth 100000 in
/-- C1 counterexample: the identifier in the upload URL is not the MD5 of
`directoryID + ":" + fileName + ":" + size + ":" + userID`: for the job
(fileName `a.txt`, destination `/dir`, size 5) and the concrete directory
identifier `/dir` and user identifier `1`, the URL the code builds differs
from the claimed one. -/
theorem c1_fingerprint_counterexample :
    uploadURLOf "a.txt" "/dir" 5 ≠
      "/api/uploads/" ++ md5hex (specFingerprintInput "/dir" "a.txt" 5 "1") := by
  decide

/-- C1 amended: the resumable identifier is
`md5_hex(fileName + ":" + destDir + ":" + fileSize)` — a deterministic
function of the file name, the destination path and the size only; no user
identifier or directory identifier is involved. -/
theorem c1_fingerprint_amended (partSize fileSize : Nat)
    (fileName destDir mimeType : String) (channelID : Int) (enc : Bool)
    (env : UploadEnv) (h0 : fileSize ≠ 0)
    (h1 : pacerCallErr env.existsEnv = false) (h2 : existsCheck env = false) :
    (uploadFile partSize fileSize fileName destDir mimeType channelID enc env).fingerprint
      = some (md5hex (fileName ++ ":" ++ destDir ++ ":" ++ toString fileSize)) := by
  unfold uploadFile
  rw [if_neg h0, if_neg (by simp [h1]), if_neg (by simp [h2])]
  unfold uploadPhase2
  dsimp only
  split_ifs <;> rfl

set_option maxRecDepth 100000 in
theorem c1_fingerprint_amended_witness :
    (uploadFile 1 1 "a" "/d" "m" 0 false envOK).fingerprint
      = some (md5hex ("a" ++ ":" ++ "/d" ++ ":" ++ toString 1)) :=
  c1_fingerprint_amended 1 1 "a" "/d" "m" 0 false envOK
    (by decide) (by decide) (by decide)

/-- Any pacer loop with a positive attempt budget makes at least one attempt
beyond the start index. -/
theorem pacerRun_fst_ge (env : Nat → CallOutcome) :
    ∀ fuel i, 1 ≤ fuel → i + 1 ≤ (pacerRun env fuel i).1 := by
  intro fuel
  induction fuel with
  | zero => intro i h; exact absurd h (by omega)
  | succ n ih =>
    intro i _
    cases n with
    | zero => simp [pacerRun]
    | succ m =>
      show i + 1 ≤ (pacerRun env (m + 2) i).1
      by_cases h : shouldRetry false (env i) = true
      · have e : pacerRun env (m + 2) i = pacerRun env (m + 1) (i + 1) := by
          show (if shouldRetry false (env i) = true then pacerRun env (m + 1) (i + 1)
                else (i + 1, env i)) = pacerRun env (m + 1) (i + 1)
          rw [h]
          simp
        rw [e]
        have := ih (i + 1) (by omega)
        omega
      · have e : pacerRun env (m + 2) i = (i + 1, env i) := by
          show (if shouldRetry false (env i) = true then pacerRun env (m + 1) (i + 1)
                else (i + 1, env i)) = (i + 1, env i)
          rw [if_neg h]
        rw [e]

/-- C2 counterexample: a 503 on the part upload POST is classified retryable,
yet the part POST is a bare `CallJSON` (upload.go line 306) issued exactly
once — it is the only server call of `UploadFile` not wrapped in
`pacer.Call`. -/
theorem c2_retry_counterexample :
    shouldRetry false (env503 0) = true ∧ partUploadAttempts env503 = 1 ∧
      (uploadFileCallSites "h").map ServerCallSite.pacered
        = [true, true, false, true, true] :=
  ⟨rfl, rfl, rfl⟩

/-- C2 amended: the existence probe, resumable-state probe, commit POST,
resumable DELETE, directory create and directory listing are all wrapped in
the pacer retry loop (a retryable first outcome leads to at least a second
attempt), but the part upload POST is not: it is issued exactly once, whatever
the outcome. -/
theorem c2_retry_amended (fp : String) (env : Nat → CallOutcome)
    (h : shouldRetry false (env 0) = true) :
    ((uploadFileCallSites fp).filter fun s => !s.pacered)
        = [⟨"POST", "/api/uploads/" ++ fp, false⟩] ∧
      createRemoteDirCallSite.pacered = true ∧
      readMetaDataCallSite.pacered = true ∧
      2 ≤ pacerCallAttempts env ∧
      partUploadAttempts env = 1 := by
  refine ⟨rfl, rfl, rfl, ?_, rfl⟩
  have h1 : pacerCall env
      = if shouldRetry false (env 0) = true then pacerRun env 9 1 else (1, env 0) := rfl
  rw [h] at h1
  simp only [if_true] at h1
  show 2 ≤ (pacerCall env).1
  rw [h1]
  exact pacerRun_fst_ge env 9 1 (by omega)

theorem c2_retry_amended_witness :
    2 ≤ pacerCallAttempts env503 ∧ partUploadAttempts env503 = 1 :=
  ⟨(c2_retry_amended "h" env503 (by decide)).2.2.2.1,
   (c2_retry_amended "h" env503 (by decide)).2.2.2.2⟩

/-- C6: the resumable-state DELETE is issued only after the commit POST
succeeded; when the commit POST fails (after its pacer retries), `UploadFile`
returns the error and the DELETE is never sent. -/
theorem c6_delete_after_commit (partSize fileSize : Nat)
    (fileName destDir mimeType : String) (channelID : Int) (enc : Bool)
    (env : UploadEnv) :
    ((uploadFile partSize fileSize fileName destDir mimeType channelID enc env).deleteIssued
          = true →
        (uploadFile partSize fileSize fileName destDir mimeType channelID enc env).commitIssued
            = true ∧
          pacerCallErr env.commitEnv = false) ∧
      (pacerCallErr env.commitEnv = true →
        ((uploadFile partSize fileSize fileName destDir mimeType channelID enc env).commitIssued
            = true →
          (uploadFile partSize fileSize fileName destDir mimeType channelID enc env).result
            = Except.error "commit failed") ∧
        (uploadFile partSize fileSize fileName destDir mimeType channelID enc env).deleteIssued
          = false) := by
  unfold uploadFile uploadPhase2
  dsimp only
  split_ifs <;> simp_all

set_option maxRecDepth 100000 in
theorem c6_delete_after_commit_witness :
    (uploadFile 1 1 "a" "/d" "m" 0 false envCommitFail).result
        = Except.error "commit failed" ∧
      (uploadFile 1 1 "a" "/d" "m" 0 false envCommitFail).deleteIssued = false := by
  have h := (c6_delete_after_commit 1 1 "a" "/d" "m" 0 false envCommitFail).2 (by decide)
  exact ⟨h.1 (by decide), h.2⟩

/-- `IncrInt64` either leaves `currentBytes` unchanged (invisible bar, exited
bar, or a config-error return) or advances it by exactly `num`. -/
theorem incrInt64_currentBytes (c : BarConfig) (s : BarState) (num : Int) (now : ℚ) :
    (incrInt64 c s num now).1.currentBytes = s.currentBytes + num ∨
      (incrInt64 c s num now).1.currentBytes = s.currentBytes := by
  unfold incrInt64
  dsimp only
  split_ifs <;> simp

/-- C7 counterexample: starting from a fresh bar with `max = 10` (so
`currentBytes = 0 ≤ max`), a single `IncrInt64(20)` drives `currentBytes` to
20 > max: the operation does not preserve `currentBytes ≤ max` for arbitrary
increments. -/
theorem c7_bar_invariant_counterexample :
    (getBasicState 0).currentBytes ≤ barCfg10.max ∧
      ¬((incrInt64 barCfg10 (getBasicState 0) 20 0).1.currentBytes ≤ barCfg10.max) := by
  constructor
  · norm_num [getBasicState, barCfg10]
  · norm_num [incrInt64, getBasicState, barCfg10, truncRat]

/-- C7 amended: `Abort`, `Close`, `Reset` (for a non-negative `max`) and
`Finish` preserve `currentBytes ≤ max`; `IncrInt64`/`IncrInt` preserve it only
when the increment does not overshoot (`currentBytes + num ≤ max`), and
`Set64` when the target does not (`num ≤ max`).  An overshooting increment
leaves `currentBytes > max` (the method then returns the "current number
exceeds max" error but keeps the mutated state, as the counterexample
shows). -/
theorem c7_bar_invariant_amended (c : BarConfig) (s : BarState) (num : Int) (now : ℚ)
    (hinv : s.currentBytes ≤ c.max) :
    (abortBar s).currentBytes ≤ c.max ∧
      (closeBar s).currentBytes ≤ c.max ∧
      (0 ≤ c.max → (resetBar s now).currentBytes ≤ c.max) ∧
      (finishBar c s now).1.currentBytes ≤ c.max ∧
      (s.currentBytes + num ≤ c.max →
        (incrInt64 c s num now).1.currentBytes ≤ c.max) ∧
      (s.currentBytes + num ≤ c.max →
        (incrInt c s num now).1.currentBytes ≤ c.max) ∧
      (num ≤ c.max → (set64 c s num now).1.currentBytes ≤ c.max) := by
  refine ⟨hinv, hinv, ?_, ?_, ?_, ?_, ?_⟩
  · intro h; simpa [resetBar, getBasicState] using h
  · rcases incrInt64_currentBytes c { s with currentNum := c.max } 0 now with h | h <;>
      simp only [finishBar, incrInt] <;> rw [h] <;> simpa using hinv
  · intro hle
    rcases incrInt64_currentBytes c s num now with h | h <;> rw [h] <;> [exact hle; exact hinv]
  · intro hle
    rcases incrInt64_currentBytes c s num now with h | h <;>
      simp only [incrInt] <;> rw [h] <;> [exact hle; exact hinv]
  · intro hle
    rcases incrInt64_currentBytes c s (num - s.currentBytes) now with h | h <;>
      simp only [set64] <;> rw [h] <;> [simpa using hle; exact hinv]

theorem c7_bar_invariant_amended_witness :
    (incrInt64 barCfg10 (getBasicState 0) 5 0).1.currentBytes ≤ barCfg10.max ∧
      (abortBar (getBasicState 0)).currentBytes ≤ barCfg10.max := by
  have h := c7_bar_invariant_amended barCfg10 (getBasicState 0) 5 0
    (by norm_num [getBasicState, barCfg10])
  exact ⟨h.2.2.2.2.1 (by norm_num [getBasicState, barCfg10]), h.1⟩

/-- Appending a sample and trimming beyond 10 entries equals dropping the
oldest entry first when the window is full. -/
theorem windowPush (l : List ℚ) (x : ℚ) (h : l.length ≤ 10) :
    (if (l ++ [x]).length > 10 then (l ++ [x]).drop 1 else l ++ [x])
      = (if l.length = 10 then l.drop 1 else l) ++ [x] := by
  by_cases h10 : l.length = 10
  · have hgt : (l ++ [x]).length > 10 := by simp [h10]
    rw [if_pos hgt, if_pos h10, List.drop_append_of_le_length (by omega)]
  · have hle : ¬((l ++ [x]).length > 10) := by simp; omega
    rw [if_neg hle, if_neg h10]

/-- C8: the rate estimator keeps at most 10 samples; an increment pushes the
sample `delta_bytes / delta_seconds` exactly when more than half a second
passed since the last boundary (dropping the oldest sample when the window is
full, then resetting the boundary and the byte accumulator), and otherwise
leaves the window and boundary alone; `averageRate` is the window mean except
that a finished bar or an empty window falls back to
`currentBytes / elapsed`. -/
theorem c8_rate_window (c : BarConfig) (s : BarState) (num : Int) (now : ℚ)
    (hinv : s.counterLastTenRates.length ≤ 10)
    (hvis : c.invisible = false) (hexit : s.exit = false)
    (hspin : (c.spinnerTypeOptionUsed && c.spinnerNonempty) = false)
    (hmax : ¬c.max = 0) :
    (incrInt64 c s num now).1.counterLastTenRates.length ≤ 10 ∧
      (now - s.counterTime > 1 / 2 →
        (incrInt64 c s num now).1.counterLastTenRates
            = (if s.counterLastTenRates.length = 10
               then s.counterLastTenRates.drop 1
               else s.counterLastTenRates)
              ++ [((s.counterNumSinceLast + num : Int) : ℚ) / (now - s.counterTime)] ∧
          (incrInt64 c s num now).1.counterTime = now ∧
          (incrInt64 c s num now).1.counterNumSinceLast = 0) ∧
      (¬(now - s.counterTime > 1 / 2) →
        (incrInt64 c s num now).1.counterLastTenRates = s.counterLastTenRates ∧
          (incrInt64 c s num now).1.counterTime = s.counterTime ∧
          (incrInt64 c s num now).1.counterNumSinceLast
            = s.counterNumSinceLast + num) ∧
      (s.finished = false → s.counterLastTenRates ≠ [] →
        computeAverageRate s now = ratAverage s.counterLastTenRates) ∧
      ((s.finished = true ∨ s.counterLastTenRates = []) → now - s.startTime > 0 →
        computeAverageRate s now = (s.currentBytes : ℚ) / (now - s.startTime)) := by
  unfold incrInt64
  rw [if_neg (by simp [hvis]), if_neg (by simp [hexit]), if_neg (by simp [hspin]),
    if_neg hmax]
  dsimp only
  refine ⟨?_, ?_, ?_, ?_, ?_⟩
  · by_cases hb : now - s.counterTime > 1 / 2
    · rw [if_pos hb]
      dsimp only
      rw [windowPush _ _ hinv]
      by_cases h10 : s.counterLastTenRates.length = 10
      · simp [h10, List.length_drop]
      · simp only [h10, if_false, List.length_append, List.length_drop,
          List.length_singleton]
        omega
    · rw [if_neg hb]
      exact hinv
  · intro hb
    rw [if_pos hb]
    exact ⟨windowPush _ _ hinv, rfl, rfl⟩
  · intro hb
    rw [if_neg hb]
    exact ⟨rfl, rfl, rfl⟩
  · intro hfin hne
    have hlen : (s.counterLastTenRates.length == 0) = false := by
      simp [List.length_eq_zero, hne]
    simp [computeAverageRate, hlen, hfin]
  · intro hor ht
    have hcond : (s.counterLastTenRates.length == 0 || s.finished) = true := by
      rcases hor with h | h <;> simp [h]
    simp [computeAverageRate, hcond, ht]

theorem c8_rate_window_witness :
    (incrInt64 barCfg10 (getBasicState 0) 3 1).1.counterLastTenRates.length ≤ 10 ∧
      (incrInt64 barCfg10 (getBasicState 0) 3 1).1.counterTime = 1 := by
  have h := c8_rate_window barCfg10 (getBasicState 0) 3 1
    (by norm_num [getBasicState]) rfl rfl rfl (by norm_num [barCfg10])
  exact ⟨h.1, (h.2.1 (by norm_num [getBasicState])).2.1⟩

/-- `totalParts` as computed by the code equals `ceil(fileSize / partSize)`. -/
theorem totalPartsOf_eq_ceil (fileSize partSize : Nat) (hP : 0 < partSize) :
    totalPartsOf fileSize partSize = (fileSize + partSize - 1) / partSize := by
  unfold totalPartsOf
  have hq := Nat.div_add_mod fileSize partSize
  rcases eq_or_ne (fileSize % partSize) 0 with h | h
  · have h1 : fileSize + partSize - 1
        = partSize * (fileSize / partSize) + (partSize - 1) := by omega
    rw [h, h1, Nat.mul_add_div hP,
      Nat.div_eq_of_lt (show partSize - 1 < partSize by omega)]
    simp
  · have hr : fileSize % partSize < partSize := Nat.mod_lt _ hP
    have hm : partSize * (fileSize / partSize + 1)
        = partSize * (fileSize / partSize) + partSize := by
      rw [Nat.mul_add, Nat.mul_one]
    have h1 : fileSize + partSize - 1
        = partSize * (fileSize / partSize + 1) + (fileSize % partSize - 1) := by
      omega
    rw [h1, Nat.mul_add_div hP,
      Nat.div_eq_of_lt (show fileSize % partSize - 1 < partSize by omega)]
    simp [h]

/-- A hit in the `existingParts` map carries the looked-up ordinal. -/
theorem lookupPart_partNo (ps : List PartFile) (k : Nat) (p : PartFile)
    (h : lookupPart ps k = some p) : p.partNo = (k : Int) := by
  suffices haux : ∀ (l : List PartFile) (acc : Option PartFile),
      (∀ q, acc = some q → q.partNo = (k : Int)) →
      l.foldl (fun acc p => if p.partNo == (k : Int) then some p else acc) acc = some p →
      p.partNo = (k : Int) by
    exact haux ps none (by simp) h
  intro l
  induction l with
  | nil =>
    intro acc hacc hfold
    exact hacc p hfold
  | cons x xs ih =>
    intro acc hacc hfold
    refine ih _ ?_ hfold
    intro q hq
    dsimp only at hq
    by_cases hx : (x.partNo == (k : Int)) = true
    · rw [if_pos hx] at hq
      cases hq
      exact beq_iff_eq.mp hx
    · rw [if_neg hx] at hq
      exact hacc q hq

/-- Whatever a part task publishes for ordinal `k` carries part number `k`,
provided the POST response body echoes the requested ordinal. -/
theorem partTask_descriptor_partNo (fetched : Option (List PartFile))
    (post : Nat → PartPost) (k : Nat) (p : PartFile)
    (hecho : ((post k).body).partNo = (k : Int)) :
    (partTask fetched post k).descriptor = some p → p.partNo = (k : Int) := by
  intro hdesc
  unfold partTask at hdesc
  cases hf : fetched.bind (fun ps => lookupPart ps k) with
  | some q =>
    rw [hf] at hdesc
    dsimp only at hdesc
    have hqp : q = p := by simpa using hdesc
    subst hqp
    rcases Option.bind_eq_some.mp hf with ⟨ps, _, hlook⟩
    exact lookupPart_partNo ps k q hlook
  | none =>
    rw [hf] at hdesc
    dsimp only at hdesc
    unfold partPostResult at hdesc
    by_cases hpub : partPostPublishes (post k).outcome = true
    · rw [if_pos hpub] at hdesc
      have hbp : (post k).body = p := by simpa using hdesc
      rw [← hbp]
      exact hecho
    · rw [if_neg hpub] at hdesc
      cases hdesc

/-- Commit-list entries keep the part number of the published descriptor. -/
theorem collectDescriptor_partNo (fetched : Option (List PartFile))
    (post : Nat → PartPost) (k : Nat) (b : FilePart)
    (hecho : ((post k).body).partNo = (k : Int)) :
    collectDescriptor (partTask fetched post k) = some b → b.partNo = (k : Int) := by
  intro hb
  unfold collectDescriptor at hb
  cases hd : (partTask fetched post k).descriptor with
  | none => rw [hd] at hb; cases hb
  | some p =>
    rw [hd] at hb
    dsimp only at hb
    by_cases hz : (p.partId == 0) = true
    · rw [if_pos hz] at hb
      cases hb
    · rw [if_neg hz] at hb
      have : ({ id := p.partId, partNo := p.partNo, salt := p.salt } : FilePart) = b := by
        simpa using hb
      rw [← this]
      exact partTask_descriptor_partNo fetched post k p hecho hd

/-- When every ordinal contributed a commit-list entry, the entries' part
numbers are exactly the scheduled ordinals, in order. -/
theorem collected_full_map_partNo (F : Nat → Option FilePart) :
    ∀ (ks : List Nat), (∀ k b, F k = some b → b.partNo = (k : Int)) →
      (ks.filterMap F).length = ks.length →
      (ks.filterMap F).map FilePart.partNo = ks.map Int.ofNat := by
  intro ks
  induction ks with
  | nil => intro _ _; simp
  | cons k ks ih =>
    intro h hlen
    cases hF : F k with
    | none =>
      exfalso
      simp only [List.filterMap_cons, hF, List.length_cons] at hlen
      have := List.length_filterMap_le F ks
      omega
    | some b =>
      simp only [List.filterMap_cons, hF, List.length_cons] at hlen ⊢
      simp only [List.map_cons]
      rw [h k b hF, ih h (by omega)]
      rfl

/-- `sort.Slice` on a strictly ascending list leaves it unchanged. -/
theorem sortParts_eq_self :
    ∀ (l : List FilePart), l.Pairwise (fun a b => a.partNo < b.partNo) →
      sortParts l = l := by
  intro l
  induction l with
  | nil => intro _; rfl
  | cons x xs ih =>
    intro h
    rcases List.pairwise_cons.mp h with ⟨hx, hxs⟩
    rw [sortParts, ih hxs]
    cases xs with
    | nil => rfl
    | cons y ys =>
      rw [insertPart, if_pos (hx y (by simp))]

/-- Entries of a tagged sum over ordinals not containing `k` never carry
tag `k`. -/
theorem flatMap_fst_filter_nil {γ : Type} (F : Nat → List (Nat × γ)) (k : Nat)
    (hfst : ∀ a e, e ∈ F a → e.1 = a) :
    ∀ (l : List Nat), k ∉ l → ((l.flatMap F).filter fun e => e.1 == k) = [] := by
  intro l
  induction l with
  | nil => intro _; rfl
  | cons a l ih =>
    intro hk
    have hka : k ≠ a := fun h => hk (by rw [h]; exact List.mem_cons_self a l)
    have hkl : k ∉ l := fun h => hk (List.mem_cons_of_mem a h)
    rw [List.flatMap_cons, List.filter_append, ih hkl, List.append_nil]
    refine List.filter_eq_nil_iff.mpr ?_
    intro e he
    rw [hfst a e he]
    simp only [beq_iff_eq]
    exact fun h => hka h.symm

/-- Filtering a tagged sum over distinct ordinals down to tag `k` yields
exactly the contribution of ordinal `k`. -/
theorem flatMap_fst_filter_eq {γ : Type} (F : Nat → List (Nat × γ)) (k : Nat)
    (hfst : ∀ a e, e ∈ F a → e.1 = a) :
    ∀ (l : List Nat), l.Nodup → k ∈ l →
      ((l.flatMap F).filter fun e => e.1 == k) = F k := by
  intro l
  induction l with
  | nil => intro _ hk; cases hk
  | cons a l ih =>
    intro hnd hk
    rcases List.nodup_cons.mp hnd with ⟨ha, hnd'⟩
    rw [List.flatMap_cons, List.filter_append]
    by_cases hak : a = k
    · subst hak
      rw [List.filter_eq_self.mpr, flatMap_fst_filter_nil F a hfst l ha,
        List.append_nil]
      intro e he
      rw [hfst a e he]
      simp
    · have hk' : k ∈ l := by
        rcases List.mem_cons.mp hk with h | h
        · exact absurd h.symm hak
        · exact h
      rw [ih hnd' hk', List.filter_eq_nil_iff.mpr, List.nil_append]
      intro e he
      rw [hfst a e he]
      simp only [beq_iff_eq]
      exact hak

/-- Published descriptors of ordinals other than `k` never carry tag `k`. -/
theorem filterMap_fst_filter_nil {γ : Type} (F : Nat → Option (Nat × γ)) (k : Nat)
    (hfst : ∀ a e, F a = some e → e.1 = a) :
    ∀ (l : List Nat), k ∉ l → ((l.filterMap F).filter fun e => e.1 == k) = [] := by
  intro l
  induction l with
  | nil => intro _; rfl
  | cons a l ih =>
    intro hk
    have hka : k ≠ a := fun h => hk (by rw [h]; exact List.mem_cons_self a l)
    have hkl : k ∉ l := fun h => hk (List.mem_cons_of_mem a h)
    cases hF : F a with
    | none =>
      simp only [List.filterMap_cons, hF]
      exact ih hkl
    | some e =>
      simp only [List.filterMap_cons, hF]
      have he1 : (e.1 == k) = false := by
        rw [hfst a e hF]
        simp only [beq_eq_false_iff_ne, ne_eq]
        exact fun h => hka h.symm
      simp [List.filter_cons, he1, ih hkl]

/-- Filtering the published descriptors of distinct ordinals down to tag `k`
yields exactly ordinal `k`'s publication. -/
theorem filterMap_fst_filter_eq {γ : Type} (F : Nat → Option (Nat × γ)) (k : Nat)
    (hfst : ∀ a e, F a = some e → e.1 = a) :
    ∀ (l : List Nat), l.Nodup → k ∈ l →
      ((l.filterMap F).filter fun e => e.1 == k) = (F k).toList := by
  intro l
  induction l with
  | nil => intro _ hk; cases hk
  | cons a l ih =>
    intro hnd hk
    rcases List.nodup_cons.mp hnd with ⟨ha, hnd'⟩
    by_cases hak : a = k
    · subst hak
      cases hF : F a with
      | none =>
        simp only [List.filterMap_cons, hF]
        simpa using filterMap_fst_filter_nil F a hfst l ha
      | some e =>
        simp only [List.filterMap_cons, hF]
        have he1 : (e.1 == a) = true := by rw [hfst a e hF]; simp
        simp [List.filter_cons, he1, filterMap_fst_filter_nil F a hfst l ha]
    · have hk' : k ∈ l := by
        rcases List.mem_cons.mp hk with h | h
        · exact absurd h.symm hak
        · exact h
      cases hF : F a with
      | none =>
        simp only [List.filterMap_cons, hF]
        exact ih hnd' hk'
      | some e =>
        simp only [List.filterMap_cons, hF]
        have he1 : (e.1 == k) = false := by
          rw [hfst a e hF]
          simp only [beq_eq_false_iff_ne, ne_eq]
          exact hak
        simp [List.filter_cons, he1, ih hnd' hk']

/-- Every bar increment a part task performs is tagged with its ordinal. -/
theorem partTask_events_fst (fetched : Option (List PartFile))
    (post : Nat → PartPost) (a : Nat) (e : Nat × Int)
    (he : e ∈ (partTask fetched post a).barEvents) : e.1 = a := by
  unfold partTask at he
  cases hf : fetched.bind (fun ps => lookupPart ps a) with
  | none =>
    rw [hf] at he
    dsimp only at he
    rcases List.mem_map.mp he with ⟨n, _, rfl⟩
    rfl
  | some p =>
    rw [hf] at he
    dsimp only at he
    have : e = (a, p.size) := by simpa using he
    rw [this]

/-- All branches of the post-fingerprint phase expose the same posted
ordinals, published descriptors and bar events. -/
theorem uploadPhase2_fields (partSize fileSize : Nat)
    (fileName destDir mimeType : String) (channelID : Int) (enc : Bool)
    (env : UploadEnv) :
    (uploadPhase2 partSize fileSize fileName destDir mimeType channelID enc env).postedOrdinals
        = postedOrdinalsOf (fetchedParts partSize fileSize env) env.partPost
            (totalPartsOf fileSize partSize) ∧
      (uploadPhase2 partSize fileSize fileName destDir mimeType channelID enc env).publishedPairs
        = publishedPairsOf (fetchedParts partSize fileSize env) env.partPost
            (totalPartsOf fileSize partSize) ∧
      (uploadPhase2 partSize fileSize fileName destDir mimeType channelID enc env).barEvents
        = barEventsOf (fetchedParts partSize fileSize env) env.partPost
            (totalPartsOf fileSize partSize) := by
  unfold uploadPhase2
  dsimp only
  split_ifs <;> exact ⟨rfl, rfl, rfl⟩

/-- Under the hypotheses that let a run get past the prefix read and the
existence probe, `UploadFile` is the post-fingerprint phase. -/
theorem uploadFile_route (partSize fileSize : Nat)
    (fileName destDir mimeType : String) (channelID : Int) (enc : Bool)
    (env : UploadEnv) (h0 : fileSize ≠ 0)
    (h1 : pacerCallErr env.existsEnv = false) (h2 : existsCheck env = false) :
    uploadFile partSize fileSize fileName destDir mimeType channelID enc env
      = uploadPhase2 partSize fileSize fileName destDir mimeType channelID enc env := by
  unfold uploadFile
  rw [if_neg h0, if_neg (by simp [h1]), if_neg (by simp [h2])]

/-- C4: on a successful upload the committed manifest has exactly
`ceil(fileSize / partSize)` part descriptors, their ordinals are the dense
sequence `1..totalParts` and the list POSTed to `/api/files` is sorted
strictly ascending by ordinal; and whenever fewer descriptors with a nonzero
persisted identifier were collected than `totalParts`, the job fails with
"uploaded parts incomplete" and no commit POST is issued.  (The POST
responses are assumed to echo the requested part ordinal, as the wire
protocol specifies.) -/
theorem c4_manifest (partSize fileSize : Nat) (fileName destDir mimeType : String)
    (channelID : Int) (enc : Bool) (env : UploadEnv)
    (hP : 0 < partSize) (hS : 0 < fileSize)
    (h1 : pacerCallErr env.existsEnv = false) (h2 : existsCheck env = false)
    (hecho : ∀ k, ((env.partPost k).body).partNo = (k : Int)) :
    ((uploadFile partSize fileSize fileName destDir mimeType channelID enc env).result
        = Except.ok () →
      ∃ pl,
        (uploadFile partSize fileSize fileName destDir mimeType channelID enc
              env).commitPayload
            = some pl ∧
          pl.parts.length = (fileSize + partSize - 1) / partSize ∧
          pl.parts.map FilePart.partNo
            = (List.range' 1 (totalPartsOf fileSize partSize)).map Int.ofNat ∧
          pl.parts.Pairwise fun a b => a.partNo < b.partNo) ∧
      ((collectedOf (fetchedParts partSize fileSize env) env.partPost
              (totalPartsOf fileSize partSize)).length
          ≠ totalPartsOf fileSize partSize →
        (uploadFile partSize fileSize fileName destDir mimeType channelID enc
              env).result
            = Except.error "uploaded parts incomplete" ∧
          (uploadFile partSize fileSize fileName destDir mimeType channelID enc
              env).commitIssued
            = false ∧
          (uploadFile partSize fileSize fileName destDir mimeType channelID enc
              env).commitPayload
            = none) := by
  rw [uploadFile_route partSize fileSize fileName destDir mimeType channelID enc env
    (by omega) h1 h2]
  unfold uploadPhase2
  dsimp only
  by_cases hlen :
      (collectedOf (fetchedParts partSize fileSize env) env.partPost
          (totalPartsOf fileSize partSize)).length
        ≠ totalPartsOf fileSize partSize
  · rw [if_pos hlen]
    constructor
    · intro hok
      simp at hok
    · intro _
      exact ⟨rfl, rfl, rfl⟩
  · rw [if_neg hlen]
    push_neg at hlen
    have hlen' :
        ((List.range' 1 (totalPartsOf fileSize partSize)).filterMap fun k =>
            collectDescriptor
              (partTask (fetchedParts partSize fileSize env) env.partPost k)).length
          = (List.range' 1 (totalPartsOf fileSize partSize)).length := by
      rw [List.length_range']
      exact hlen
    have hmap :
        (collectedOf (fetchedParts partSize fileSize env) env.partPost
              (totalPartsOf fileSize partSize)).map FilePart.partNo
          = (List.range' 1 (totalPartsOf fileSize partSize)).map Int.ofNat := by
      unfold collectedOf
      exact collected_full_map_partNo _ _
        (fun k b hb =>
          collectDescriptor_partNo (fetchedParts partSize fileSize env)
            env.partPost k b (hecho k) hb)
        hlen'
    have hpair :
        (collectedOf (fetchedParts partSize fileSize env) env.partPost
            (totalPartsOf fileSize partSize)).Pairwise
          fun a b => a.partNo < b.partNo := by
      have hm :
          ((collectedOf (fetchedParts partSize fileSize env) env.partPost
                (totalPartsOf fileSize partSize)).map FilePart.partNo).Pairwise
            (· < ·) := by
        rw [hmap]
        refine List.pairwise_map.mpr ?_
        exact (List.pairwise_lt_range' 1 (totalPartsOf fileSize partSize)).imp
          fun h => Int.ofNat_lt.mpr h
      exact List.pairwise_map.mp hm
    have hsort :
        sortParts
            (collectedOf (fetchedParts partSize fileSize env) env.partPost
              (totalPartsOf fileSize partSize))
          = collectedOf (fetchedParts partSize fileSize env) env.partPost
              (totalPartsOf fileSize partSize) :=
      sortParts_eq_self _ hpair
    have hprops :
        (sortParts
              (collectedOf (fetchedParts partSize fileSize env) env.partPost
                (totalPartsOf fileSize partSize))).length
            = (fileSize + partSize - 1) / partSize ∧
          (sortParts
                (collectedOf (fetchedParts partSize fileSize env) env.partPost
                  (totalPartsOf fileSize partSize))).map FilePart.partNo
            = (List.range' 1 (totalPartsOf fileSize partSize)).map Int.ofNat ∧
          (sortParts
                (collectedOf (fetchedParts partSize fileSize env) env.partPost
                  (totalPartsOf fileSize partSize))).Pairwise
              fun a b => a.partNo < b.partNo := by
      rw [hsort]
      refine ⟨?_, hmap, hpair⟩
      exact hlen.trans (totalPartsOf_eq_ceil fileSize partSize hP)
    constructor
    · intro _
      split_ifs <;> exact ⟨_, rfl, hprops.1, hprops.2.1, hprops.2.2⟩
    · intro hc
      exact absurd hlen hc

set_option maxRecDepth 100000 in
theorem c4_manifest_witness :
    ∃ pl,
      (uploadFile 1 2 "a" "/d" "m" 0 false envOK).commitPayload = some pl ∧
        pl.parts.length = (2 + 1 - 1) / 1 ∧
        pl.parts.map FilePart.partNo = (List.range' 1 (totalPartsOf 2 1)).map Int.ofNat ∧
        pl.parts.Pairwise fun a b => a.partNo < b.partNo :=
  (c4_manifest 1 2 "a" "/d" "m" 0 false envOK (by decide) (by decide)
      (by decide) (by decide) (fun k => rfl)).1 rfl

/-- C5: when the fetched resumable state lists part ordinal `k`, the part task
for `k` issues no HTTP POST; it publishes the stored descriptor unchanged and
increments the file's bar by the recorded part size exactly once. -/
theorem c5_resume_skip (partSize fileSize : Nat) (fileName destDir mimeType : String)
    (channelID : Int) (enc : Bool) (env : UploadEnv) (k : Nat) (p : PartFile)
    (hPS : partSize < fileSize)
    (h1 : pacerCallErr env.existsEnv = false) (h2 : existsCheck env = false)
    (hres : pacerCallErr env.resumableEnv = false)
    (hlook : lookupPart env.resumableBody k = some p)
    (hk : k ∈ List.range' 1 (totalPartsOf fileSize partSize)) :
    k ∉ (uploadFile partSize fileSize fileName destDir mimeType channelID enc
          env).postedOrdinals ∧
      ((uploadFile partSize fileSize fileName destDir mimeType channelID enc
              env).publishedPairs.filter fun e => e.1 == k)
        = [(k, p)] ∧
      ((uploadFile partSize fileSize fileName destDir mimeType channelID enc
              env).barEvents.filter fun e => e.1 == k)
        = [(k, p.size)] := by
  rw [uploadFile_route partSize fileSize fileName destDir mimeType channelID enc env
    (by omega) h1 h2]
  obtain ⟨hposted, hpub, hev⟩ :=
    uploadPhase2_fields partSize fileSize fileName destDir mimeType channelID enc env
  rw [hposted, hpub, hev]
  have hfetch : fetchedParts partSize fileSize env = some env.resumableBody := by
    unfold fetchedParts
    rw [if_pos ⟨hPS, hres⟩]
  have hbind :
      (fetchedParts partSize fileSize env).bind (fun ps => lookupPart ps k)
        = some p := by
    rw [hfetch]
    simpa using hlook
  have htask :
      partTask (fetchedParts partSize fileSize env) env.partPost k
        = ⟨some p, false, [(k, p.size)]⟩ := by
    unfold partTask
    rw [hbind]
  refine ⟨?_, ?_, ?_⟩
  · unfold postedOrdinalsOf
    intro hmem
    have hpost := (List.mem_filter.mp hmem).2
    rw [htask] at hpost
    cases hpost
  · unfold publishedPairsOf
    rw [filterMap_fst_filter_eq _ k
      (fun a e he => by
        rcases Option.map_eq_some'.mp he with ⟨q, _, rfl⟩
        rfl)
      _ (List.nodup_range' 1 (totalPartsOf fileSize partSize)) hk]
    rw [htask]
    rfl
  · unfold barEventsOf
    rw [flatMap_fst_filter_eq _ k
      (fun a e he => partTask_events_fst (fetchedParts partSize fileSize env)
        env.partPost a e he)
      _ (List.nodup_range' 1 (totalPartsOf fileSize partSize)) hk]
    rw [htask]

set_option maxRecDepth 100000 in
theorem c5_resume_skip_witness :
    1 ∉ (uploadFile 1 2 "a" "/d" "m" 0 false envResume).postedOrdinals ∧
      ((uploadFile 1 2 "a" "/d" "m" 0 false envResume).publishedPairs.filter
            fun e => e.1 == 1)
        = [(1, (⟨"p", 7, 1, 1, 5, 0, false, "s"⟩ : PartFile))] ∧
      ((uploadFile 1 2 "a" "/d" "m" 0 false envResume).barEvents.filter
            fun e => e.1 == 1)
        = [(1, (5 : Int))] :=
  c5_resume_skip 1 2 "a" "/d" "m" 0 false envResume 1 ⟨"p", 7, 1, 1, 5, 0, false, "s"⟩
    (by decide) (by decide) (by decide) (by decide) (by decide) (by decide)

end Teldrive
